import Mathlib

/-!
Verification development for the Grainlify fund-custody engine.

The repository ships two Soroban escrow contracts (a bounty escrow and a
program/prize-pool escrow) together with an RBAC module, plus a React
frontend.  The Rust contract sources themselves are not part of this
source snapshot (only their documentation, authorization tables and the
RBAC matrix are), so the contract operations below are modelled from the
specification; the frontend helpers (`formatNumber`, `getProjectColor`)
are translated directly from
`src/frontend/src/features/admin/pages/AdminPage.tsx`.

Machine integers: amounts are signed 128-bit (`i128`) in the contracts;
they are modelled as `Int` together with explicit `i128` bounds and an
overflow-checked addition, matching the documented `checked_add`
behaviour (abort on overflow, never wrap).
-/

/-- Modelled from the spec: the `Role` enum of the missing `src/rbac.rs`
(Admin | Operator | Pauser | Viewer), one role per address. -/
inductive Role where
  | Admin
  | Operator
  | Pauser
  | Viewer
deriving DecidableEq, Repr

/-- Modelled from the spec: the error taxonomy of the missing contract
sources (typed errors; every error aborts the whole invocation). -/
inductive Err where
  | BountyExists
  | BountyNotFound
  | FundsNotLocked
  | DeadlineNotPassed
  | Unauthorized
  | InvalidAmount
  | BatchTooLarge
  | BatchLengthMismatch
  | InsufficientBalance
  | ArithmeticOverflow
  | ContractPaused
deriving DecidableEq, Repr

/-- Keyed persistent store (Soroban `Map`), modelled as an association list. -/
def mapGet {α : Type} (m : List (Nat × α)) (k : Nat) : Option α :=
  List.lookup k m

/-- Delete a key from a keyed store. -/
def mapDel {α : Type} (m : List (Nat × α)) (k : Nat) : List (Nat × α) :=
  m.filter (fun p => decide (p.1 ≠ k))

/-- Overwrite (or create) the entry of a key in a keyed store. -/
def mapSet {α : Type} (m : List (Nat × α)) (k : Nat) (v : α) : List (Nat × α) :=
  (k, v) :: mapDel m k

/-- The RBAC map: address (modelled as `Nat`) to role, one role per address. -/
abbrev RMap := List (Nat × Role)

/-- Modelled from the spec: `get_role(address)` of the missing `src/rbac.rs` —
unrestricted read of the stored role mapping. -/
def getRole (roles : RMap) (addr : Nat) : Option Role :=
  mapGet roles addr

/-- Modelled from the spec: `is_admin` of the missing `src/rbac.rs` —
true only for the literal Admin tag. -/
def isAdmin (roles : RMap) (addr : Nat) : Bool :=
  decide (getRole roles addr = some Role.Admin)

/-- Modelled from the spec: `is_operator` of the missing `src/rbac.rs` —
true for Operator or Admin (Admin subsumes Operator). -/
def isOperator (roles : RMap) (addr : Nat) : Bool :=
  match getRole roles addr with
  | some Role.Admin => true
  | some Role.Operator => true
  | _ => false

/-- Modelled from the spec: `can_pause` of the missing `src/rbac.rs` —
true for Pauser or Admin. -/
def canPause (roles : RMap) (addr : Nat) : Bool :=
  match getRole roles addr with
  | some Role.Admin => true
  | some Role.Pauser => true
  | _ => false

/-- Whether a stored role satisfies an expected role: equal roles always do,
and Admin additionally satisfies Operator and Pauser. -/
def roleSatisfies (actual expected : Role) : Bool :=
  decide (actual = expected) ||
    (decide (actual = Role.Admin) &&
      (decide (expected = Role.Operator) || decide (expected = Role.Pauser)))

/-- Modelled from the spec: `requireRole(expected)` of the missing
`src/rbac.rs` — fails `Unauthorized` unless the caller's stored role equals
`expected`, or equals Admin when `expected` is Operator or Pauser. -/
def requireRole (roles : RMap) (caller : Nat) (expected : Role) : Except Err Unit :=
  match getRole roles caller with
  | none => .error .Unauthorized
  | some r => if roleSatisfies r expected then .ok () else .error .Unauthorized

/-- Modelled from the spec: `grant_role(env, address, role)` of the missing
`src/rbac.rs` — requires the caller's stored role to be exactly Admin and
overwrites the mapping entry. -/
def grantRole (roles : RMap) (caller addr : Nat) (r : Role) : Except Err RMap :=
  if isAdmin roles caller then .ok (mapSet roles addr r) else .error .Unauthorized

/-- Modelled from the spec: `revoke_role(env, address)` of the missing
`src/rbac.rs` — requires the caller's stored role to be exactly Admin and
deletes the mapping entry, reverting the address to "no role". -/
def revokeRole (roles : RMap) (caller addr : Nat) : Except Err RMap :=
  if isAdmin roles caller then .ok (mapDel roles addr) else .error .Unauthorized

/-! ## Checked `i128` arithmetic -/

/-- Largest `i128` value, `2 ^ 127 - 1` (amounts in the contracts are
signed 128-bit). -/
def I128MAX : Int := 170141183460469231731687303715884105727

/-- Smallest `i128` value, `-(2 ^ 127)`. -/
def I128MIN : Int := -170141183460469231731687303715884105728

/-- Modelled from the spec: Rust's `i128::checked_add` as used by the missing
program-escrow source — exact addition that aborts (returns `none`) instead of
wrapping when the result leaves the `i128` range. -/
def checkedAdd (a b : Int) : Option Int :=
  if I128MIN ≤ a + b ∧ a + b ≤ I128MAX then some (a + b) else none

/-- Modelled from the spec: overflow-checked summation of a batch's amounts
into an accumulator, as the missing `batch_payout` computes its total before
any transfer. -/
def checkedSum (l : List Int) : Option Int :=
  l.foldl (fun acc x => acc.bind fun t => checkedAdd t x) (some 0)

/-! ## Execution steps (checks-effects-interactions trace) -/

/-- One observable step of an entry-point invocation: a persistent state
write, a token transfer into custody, or a token transfer out of custody. -/
inductive Step where
  | write
  | xferIn (src : Nat) (amount : Int)
  | xferOut (dst : Nat) (amount : Int)
deriving DecidableEq, Repr

/-- Whether a step is the persistent state write. -/
def Step.isWrite : Step → Bool
  | Step.write => true
  | _ => false

/-- A trace respects checks-effects-interactions ordering when, after the
leading block of state writes, no further write occurs: every persistent
update precedes every external transfer. -/
def orderedTrace (tr : List Step) : Bool :=
  (tr.dropWhile Step.isWrite).all fun st => ! st.isWrite

/-- The step trace of an invocation result: successful calls expose their
trace, aborted calls performed nothing. -/
def traceOf {σ : Type} (r : Except Err (σ × List Step)) : List Step :=
  match r with
  | .ok (_, tr) => tr
  | .error _ => []

/-! ## Bounty escrow (modelled from the spec) -/

/-- Modelled from the spec: the per-bounty escrow status of the missing
`bounty_escrow` source — `Locked → Released` or `Locked → Refunded`, both
terminal. -/
inductive EscrowStatus where
  | Locked
  | Released
  | Refunded
deriving DecidableEq, Repr

/-- Modelled from the spec: the per-bounty record of the missing
`bounty_escrow` source (depositor, positive `i128` amount, deadline
timestamp, status). -/
structure BountyRec where
  depositor : Nat
  amount : Int
  deadline : Nat
  status : EscrowStatus
deriving DecidableEq, Repr

/-- Modelled from the spec: the persistent state of the missing
`bounty_escrow` contract — RBAC map, token reference, cross-cutting pause
flag, the bounty-record map and the contract's token custody balance. -/
structure BState where
  roles : RMap
  token : Nat
  paused : Bool
  bounties : List (Nat × BountyRec)
  balance : Int
deriving DecidableEq, Repr

/-- State after `lock_funds` creates a Locked record and takes custody. -/
def bountyAfterLock (s : BState) (d b : Nat) (a : Int) (dl : Nat) : BState :=
  { s with bounties := mapSet s.bounties b ⟨d, a, dl, EscrowStatus.Locked⟩,
           balance := s.balance + a }

/-- State after `release_funds` marks a record Released and pays it out. -/
def bountyAfterRelease (s : BState) (b : Nat) (rec : BountyRec) : BState :=
  { s with bounties := mapSet s.bounties b { rec with status := EscrowStatus.Released },
           balance := s.balance - rec.amount }

/-- State after `refund` marks a record Refunded and returns custody. -/
def bountyAfterRefund (s : BState) (b : Nat) (rec : BountyRec) : BState :=
  { s with bounties := mapSet s.bounties b { rec with status := EscrowStatus.Refunded },
           balance := s.balance - rec.amount }

/-- Modelled from the spec: `lock_funds(depositor, bounty_id, amount, deadline)`
of the missing `bounty_escrow` source — while paused fails `ContractPaused`
before any other validation; fails `BountyExists` on a duplicate id and
`InvalidAmount` on `amount <= 0`; otherwise writes the Locked record and then
pulls the tokens in from the depositor. -/
def lockFunds (s : BState) (depositor b : Nat) (amount : Int) (deadline : Nat) :
    Except Err (BState × List Step) :=
  if s.paused then .error .ContractPaused
  else if (mapGet s.bounties b).isSome then .error .BountyExists
  else if amount ≤ 0 then .error .InvalidAmount
  else .ok (bountyAfterLock s depositor b amount deadline,
            [Step.write, Step.xferIn depositor amount])

/-- Modelled from the spec: `release_funds(bounty_id, contributor)` of the
missing `bounty_escrow` source — while paused fails `ContractPaused` first;
requires the caller to hold Admin or Operator; fails `BountyNotFound` without
a record and `FundsNotLocked` unless the status is Locked; otherwise writes
status Released and then transfers the amount to the contributor. -/
def releaseFunds (s : BState) (caller b contributor : Nat) :
    Except Err (BState × List Step) :=
  if s.paused then .error .ContractPaused
  else if isOperator s.roles caller = false then .error .Unauthorized
  else match mapGet s.bounties b with
    | none => .error .BountyNotFound
    | some rec =>
      if rec.status ≠ EscrowStatus.Locked then .error .FundsNotLocked
      else .ok (bountyAfterRelease s b rec, [Step.write, Step.xferOut contributor rec.amount])

/-- Modelled from the spec: `refund(bounty_id)` of the missing
`bounty_escrow` source — while paused fails `ContractPaused` first; requires
no role (the caller is ignored); fails `BountyNotFound` without a record,
`FundsNotLocked` unless Locked and `DeadlineNotPassed` unless
`now ≥ deadline`; otherwise writes status Refunded and then transfers the
amount back to the original depositor, never to the caller. -/
def refund (s : BState) (_caller b now : Nat) : Except Err (BState × List Step) :=
  if s.paused then .error .ContractPaused
  else match mapGet s.bounties b with
    | none => .error .BountyNotFound
    | some rec =>
      if rec.status ≠ EscrowStatus.Locked then .error .FundsNotLocked
      else if now < rec.deadline then .error .DeadlineNotPassed
      else .ok (bountyAfterRefund s b rec, [Step.write, Step.xferOut rec.depositor rec.amount])

/-- Modelled from the spec: `get_balance()` of the missing `bounty_escrow`
source — unrestricted read, available regardless of pause state. -/
def getBalance (s : BState) : Except Err Int :=
  .ok s.balance

/-! ## Program escrow (modelled from the spec) -/

/-- Hard ceiling on the batch size of `batch_payout` (`MAX_BATCH_SIZE = 100`). -/
def MAX_BATCH_SIZE : Nat := 100

/-- Modelled from the spec: a payout-history entry of the missing
`program-escrow` source (recipient, amount, timestamp, resulting balance);
the history is append-only. -/
structure HistEntry where
  recipient : Nat
  amount : Int
  timestamp : Nat
  resulting : Int
deriving DecidableEq, Repr

/-- Modelled from the spec: the persistent state of the missing
`program-escrow` contract — program metadata, the dedicated authorized
payout key, the RBAC map, the cross-cutting pause flag, the remaining
balance, the append-only payout history and the optional per-transaction
cap of `ConfigLimits`. -/
structure PState where
  programId : Nat
  authorizedKey : Nat
  token : Nat
  roles : RMap
  paused : Bool
  remainingBalance : Int
  history : List HistEntry
  perTxCap : Option Int
deriving DecidableEq, Repr

/-- Modelled from the spec: payout authorization of the missing
`program-escrow` source — the caller presents the program's authorized
payout key, or satisfies the Admin/Operator RBAC overlay. -/
def payoutAuthorized (s : PState) (caller : Nat) : Bool :=
  decide (caller = s.authorizedKey) || isOperator s.roles caller

/-- Whether an amount exceeds the configured per-transaction cap. -/
def capExceeded (s : PState) (amount : Int) : Bool :=
  match s.perTxCap with
  | none => false
  | some cap => decide (cap < amount)

/-- State after a batch payout of total `total`: the remaining balance is
decremented once by the validated total and one history entry is appended
per recipient. -/
def progAfterBatch (s : PState) (recipients : List Nat) (amounts : List Int)
    (now : Nat) (total : Int) : PState :=
  { s with remainingBalance := s.remainingBalance - total,
           history := s.history ++
             List.zipWith (fun r a => HistEntry.mk r a now (s.remainingBalance - total))
               recipients amounts }

/-- Modelled from the spec: `lock_program_funds(amount)` of the missing
`program-escrow` source — while paused fails `ContractPaused` first;
callable repeatedly by any caller with no role or key restriction; fails
`InvalidAmount` on `amount <= 0`; otherwise increases the remaining balance
by the amount using overflow-checked addition (aborting with
`ArithmeticOverflow` if the checked add fails), writes the state and then
pulls the tokens in. -/
def lockProgramFunds (s : PState) (caller : Nat) (amount : Int) :
    Except Err (PState × List Step) :=
  if s.paused then .error .ContractPaused
  else if amount ≤ 0 then .error .InvalidAmount
  else match checkedAdd s.remainingBalance amount with
    | none => .error .ArithmeticOverflow
    | some nb => .ok ({ s with remainingBalance := nb },
                      [Step.write, Step.xferIn caller amount])

/-- Modelled from the spec: `single_payout(recipient, amount)` of the missing
`program-escrow` source — while paused fails `ContractPaused` first; requires
the authorized payout key (or Admin/Operator); fails `InsufficientBalance` if
the amount exceeds the remaining balance and `InvalidAmount` if it exceeds
the configured per-transaction cap; otherwise decrements the balance, appends
a history entry, writes the state and then transfers the tokens out. -/
def singlePayout (s : PState) (caller recipient : Nat) (amount : Int) (now : Nat) :
    Except Err (PState × List Step) :=
  if s.paused then .error .ContractPaused
  else if payoutAuthorized s caller = false then .error .Unauthorized
  else if s.remainingBalance < amount then .error .InsufficientBalance
  else if capExceeded s amount then .error .InvalidAmount
  else .ok ({ s with
                remainingBalance := s.remainingBalance - amount,
                history := s.history ++
                  [HistEntry.mk recipient amount now (s.remainingBalance - amount)] },
            [Step.write, Step.xferOut recipient amount])

/-- Modelled from the spec: `batch_payout(recipients, amounts)` of the
missing `program-escrow` source — while paused fails `ContractPaused` first;
same authorization as single payout; fails `BatchLengthMismatch` on unequal
lengths and `BatchTooLarge` beyond `MAX_BATCH_SIZE`; computes the total by
overflow-checked summation before any transfer, aborting with
`ArithmeticOverflow` on overflow and `InsufficientBalance` when the total
exceeds the remaining balance; only then commits the whole batch: one state
write followed by one transfer per listed recipient of its listed amount. -/
def batchPayout (s : PState) (caller : Nat) (recipients : List Nat)
    (amounts : List Int) (now : Nat) : Except Err (PState × List Step) :=
  if s.paused then .error .ContractPaused
  else if payoutAuthorized s caller = false then .error .Unauthorized
  else if recipients.length ≠ amounts.length then .error .BatchLengthMismatch
  else if MAX_BATCH_SIZE < recipients.length then .error .BatchTooLarge
  else match checkedSum amounts with
    | none => .error .ArithmeticOverflow
    | some total =>
      if s.remainingBalance < total then .error .InsufficientBalance
      else .ok (progAfterBatch s recipients amounts now total,
                Step.write :: List.zipWith (fun r a => Step.xferOut r a) recipients amounts)

/-- Modelled from the spec: `pause_contract` of the missing
`program-escrow` source — requires Pauser-or-Admin, transitions
Unpaused → Paused, and fails (no-op) when already Paused. -/
def pauseContract (s : PState) (caller : Nat) : Except Err PState :=
  if canPause s.roles caller = false then .error .Unauthorized
  else if s.paused then .error .ContractPaused
  else .ok { s with paused := true }

/-- Modelled from the spec: `unpause_contract` of the missing
`program-escrow` source — requires exactly Admin and transitions
Paused → Unpaused. -/
def unpauseContract (s : PState) (caller : Nat) : Except Err PState :=
  if isAdmin s.roles caller = false then .error .Unauthorized
  else .ok { s with paused := false }

/-- Modelled from the spec: the `get_role` read entry point — unrestricted,
available regardless of pause state. -/
def getRoleOp (s : PState) (addr : Nat) : Except Err (Option Role) :=
  .ok (getRole s.roles addr)

/-- Modelled from the spec: `get_program_info()` of the missing
`program-escrow` source — unrestricted read, available regardless of pause
state. -/
def getProgramInfo (s : PState) : Except Err (Nat × Nat × Int) :=
  .ok (s.programId, s.authorizedKey, s.remainingBalance)

/-! ## Frontend helpers (translated from
`src/frontend/src/features/admin/pages/AdminPage.tsx`) -/

/-- `⌊log2 n⌋` for `1 ≤ n < 2 ^ 64` (and 0 at 0), as the number of powers of
two not exceeding `n`, minus one. -/
def floorLog2 (n : Nat) : Nat :=
  ((List.range 64).filter (fun k => 2 ^ k ≤ n)).length - 1

/-- Round `a / b` to the nearest integer with ties to even (`b > 0`) —
IEEE 754's default rounding of an exact quotient onto the integer grid. -/
def roundHalfEven (a b : Nat) : Nat :=
  let q := a / b
  let r := a % b
  if 2 * r < b then q
  else if b < 2 * r then q + 1
  else if q % 2 = 0 then q else q + 1

/-- The IEEE 754 binary64 value of `num / den` for `den ≤ num < 2 ^ 53 * den`
(so the quotient is a normal double ≥ 1), returned exactly as a pair
`(m, p)` whose value is `m / 2 ^ p`: the exponent `t = ⌊log2 (num/den)⌋` is
recovered from the integer quotient, the quotient is scaled into the 53-bit
significand range `[2^52, 2^53)` and correctly rounded to nearest, ties to
even — exactly how JavaScript's `/` divides two exactly-representable
operands. -/
def doubleDivSig (num den : Nat) : Nat × Nat :=
  let t := floorLog2 (num / den)
  let p := 52 - t
  (roundHalfEven (num * 2 ^ p) den, p)

/-- ECMA-262 `Number.prototype.toFixed(1)` applied to the positive double
`m / 2 ^ p` (for values below `10^21`): the integer `d` minimising
`|d / 10 − x|` with ties to the larger `d` — round half up for positive `x`
— rendered as `w.d`. -/
def jsToFixed1 (m p : Nat) : String :=
  let d := (20 * m + 2 ^ p) / 2 ^ (p + 1)
  toString (d / 10) ++ "." ++ toString (d % 10)

/-- JavaScript's `(num / den).toFixed(1)` for exactly-representable natural
operands: binary64 division first, then `toFixed(1)` of the resulting
double. -/
def jsDivToFixed1 (num den : Nat) : String :=
  jsToFixed1 (doubleDivSig num den).1 (doubleDivSig num den).2

/-- Follows the spec's words, for comparison with the source translation:
"(n/den) rounded to one decimal" as exact rational rounding (half-up; at the
inputs of interest ties-to-even renders identically), with no intermediate
double. -/
def specToFixed1 (num den : Nat) : String :=
  let d := (10 * num + den / 2) / den
  toString (d / 10) ++ "." ++ toString (d % 10)

/-- `formatNumber` from `AdminPage.tsx`: millions get `(num/1000000).toFixed(1)`
and an `M` suffix, thousands `(num/1000).toFixed(1)` and a `K` suffix,
smaller numbers their plain decimal representation; the quotients are IEEE
binary64 divisions, exactly as the JavaScript engine computes them. -/
def formatNumber (num : Nat) : String :=
  if 1000000 ≤ num then jsDivToFixed1 num 1000000 ++ "M"
  else if 1000 ≤ num then jsDivToFixed1 num 1000 ++ "K"
  else toString num

/-- The fixed gradient list of `getProjectColor` in `AdminPage.tsx`. -/
def projectColors : List String :=
  ["from-blue-500 to-cyan-500",
   "from-purple-500 to-pink-500",
   "from-green-500 to-emerald-500",
   "from-red-500 to-pink-500",
   "from-orange-500 to-red-500",
   "from-gray-600 to-gray-800",
   "from-green-600 to-green-800",
   "from-cyan-500 to-blue-600"]

/-- `getProjectColor` from `AdminPage.tsx`: the character codes of the name
are summed and the sum, taken modulo the list length, indexes the fixed
gradient list. -/
def getProjectColor (name : String) : String :=
  let hash := (name.data.map Char.toNat).sum
  projectColors.getD (hash % projectColors.length) ""

/-! ## Concrete states used by the witnesses -/

/-- A small RBAC map: 9 is Admin, 8 Operator, 6 Pauser, 4 Viewer. -/
def wRoles : RMap := [(9, Role.Admin), (8, Role.Operator), (6, Role.Pauser), (4, Role.Viewer)]

/-- An unpaused bounty-escrow state with no bounty records. -/
def bs0 : BState := { roles := wRoles, token := 3, paused := false, bounties := [], balance := 0 }

/-- An unpaused bounty-escrow state holding one Locked bounty
(id 2, depositor 5, amount 100, deadline 50). -/
def bsLocked : BState :=
  { roles := wRoles, token := 3, paused := false,
    bounties := [(2, ⟨5, 100, 50, EscrowStatus.Locked⟩)], balance := 100 }

/-- A paused bounty-escrow state. -/
def bsPaused : BState :=
  { roles := wRoles, token := 3, paused := true, bounties := [], balance := 0 }

/-- An unpaused program-escrow state with authorized key 7 and remaining
balance 10000. -/
def ps0 : PState :=
  { programId := 1, authorizedKey := 7, token := 3, roles := wRoles, paused := false,
    remainingBalance := 10000, history := [], perTxCap := none }

/-- A paused program-escrow state. -/
def psPaused : PState :=
  { programId := 1, authorizedKey := 7, token := 3, roles := wRoles, paused := true,
    remainingBalance := 10000, history := [], perTxCap := none }

/-! ## Helper lemmas -/

theorem mapGet_mapDel_ne {α : Type} (m : List (Nat × α)) (k k' : Nat) (h : k' ≠ k) :
    mapGet (mapDel m k) k' = mapGet m k' := by
  induction m with
  | nil => rfl
  | cons p t ih =>
    by_cases hp : p.1 = k
    · simp only [mapDel, List.filter_cons] at *
      rw [if_neg (by simp [hp])]
      have : (k' == p.1) = false := by
        simp [hp]; omega
      simp [mapGet, List.lookup, this] at ih ⊢
      exact ih
    · simp only [mapDel, List.filter_cons] at *
      rw [if_pos (by simp [hp])]
      by_cases hk : k' = p.1
      · simp [mapGet, List.lookup, hk]
      · have : (k' == p.1) = false := by simp [hk]
        simp [mapGet, List.lookup, this] at ih ⊢
        exact ih

theorem mapGet_mapDel_self {α : Type} (m : List (Nat × α)) (k : Nat) :
    mapGet (mapDel m k) k = none := by
  induction m with
  | nil => rfl
  | cons p t ih =>
    by_cases hp : p.1 = k
    · simp only [mapDel, List.filter_cons] at *
      rw [if_neg (by simp [hp])]
      exact ih
    · simp only [mapDel, List.filter_cons] at *
      rw [if_pos (by simp [hp])]
      have : (k == p.1) = false := by
        simp; omega
      simp [mapGet, List.lookup, this] at ih ⊢
      exact ih

theorem mapGet_mapSet_self {α : Type} (m : List (Nat × α)) (k : Nat) (v : α) :
    mapGet (mapSet m k v) k = some v := by
  simp [mapGet, mapSet, List.lookup]

theorem mapGet_mapSet_ne {α : Type} (m : List (Nat × α)) (k k' : Nat) (v : α) (h : k' ≠ k) :
    mapGet (mapSet m k v) k' = mapGet m k' := by
  have : (k' == k) = false := by simp [h]
  simp only [mapGet, mapSet, List.lookup, this]
  exact mapGet_mapDel_ne m k k' h

theorem checkedSum_foldl_none (l : List Int) :
    l.foldl (fun acc x => acc.bind fun t => checkedAdd t x) none = none := by
  induction l with
  | nil => rfl
  | cons x t ih => simpa using ih

theorem checkedSum_foldl_some (l : List Int) :
    ∀ acc T : Int,
      l.foldl (fun acc x => acc.bind fun t => checkedAdd t x) (some acc) = some T →
      T = acc + l.sum := by
  induction l with
  | nil => intro acc T h; simp at h; simp [h]
  | cons x t ih =>
    intro acc T h
    rw [List.foldl_cons] at h
    have hb : ((some acc).bind fun t => checkedAdd t x) = checkedAdd acc x := rfl
    rw [hb] at h
    by_cases hr : I128MIN ≤ acc + x ∧ acc + x ≤ I128MAX
    · rw [show checkedAdd acc x = some (acc + x) from by unfold checkedAdd; rw [if_pos hr]] at h
      have := ih (acc + x) T h
      simp [this, List.sum_cons]
      ring
    · rw [show checkedAdd acc x = none from by unfold checkedAdd; rw [if_neg hr]] at h
      rw [checkedSum_foldl_none] at h
      exact absurd h (by simp)

/-- The checked total, when it exists, is the exact mathematical sum. -/
theorem checkedSum_eq_sum (l : List Int) (T : Int) (h : checkedSum l = some T) :
    T = l.sum := by
  have := checkedSum_foldl_some l 0 T h
  simpa using this

theorem all_dropWhile (p q : Step → Bool) (l : List Step) (h : l.all q = true) :
    (l.dropWhile p).all q = true := by
  induction l with
  | nil => rfl
  | cons x t ih =>
    rw [List.all_cons, Bool.and_eq_true] at h
    cases hx : p x
    · simpa [List.dropWhile, hx, List.all_cons, h.1] using h.2
    · simpa [List.dropWhile, hx] using ih h.2

theorem orderedTrace_write_cons (l : List Step)
    (h : (l.all fun st => ! st.isWrite) = true) :
    orderedTrace (Step.write :: l) = true := by
  unfold orderedTrace
  have hd : (Step.write :: l).dropWhile Step.isWrite = l.dropWhile Step.isWrite := by
    simp [List.dropWhile, Step.isWrite]
  rw [hd]
  exact all_dropWhile _ _ l h

theorem all_not_write_zipWith (rs : List Nat) (amts : List Int) :
    ((List.zipWith (fun r a => Step.xferOut r a) rs amts).all fun st => ! st.isWrite) = true := by
  induction rs generalizing amts with
  | nil => rfl
  | cons r t ih =>
    cases amts with
    | nil => rfl
    | cons a ta => simpa [List.zipWith, Step.isWrite] using ih ta

/-! ## Claim theorems -/

/-- C1: batch payout is all-or-nothing — from any program state with
remaining balance `B`, for a valid-size authorized batch with checked total
`T`: if `T > B` the call fails `InsufficientBalance` (no state change, no
transfer is performed since aborted calls commit nothing), and if `T ≤ B`
the call succeeds with remaining balance exactly `B − T` and one transfer of
its listed amount per listed recipient. -/
theorem c1_batch_payout_atomicity (s : PState) (caller now : Nat)
    (recipients : List Nat) (amounts : List Int) (T : Int)
    (hp : s.paused = false) (ha : payoutAuthorized s caller = true)
    (hlen : recipients.length = amounts.length)
    (hsz : recipients.length ≤ MAX_BATCH_SIZE)
    (hsum : checkedSum amounts = some T) :
    T = amounts.sum ∧
    (s.remainingBalance < T →
      batchPayout s caller recipients amounts now = .error .InsufficientBalance) ∧
    (T ≤ s.remainingBalance →
      batchPayout s caller recipients amounts now =
        .ok (progAfterBatch s recipients amounts now T,
             Step.write :: List.zipWith (fun r a => Step.xferOut r a) recipients amounts)) := by
  have hsz' : ¬ (MAX_BATCH_SIZE < amounts.length) := by omega
  refine ⟨checkedSum_eq_sum amounts T hsum, ?_, ?_⟩
  · intro h
    simp [batchPayout, hp, ha, hlen, hsz', hsum, h]
  · intro h
    simp [batchPayout, hp, ha, hlen, hsz', hsum, not_lt.mpr h]

/-- C1 witness: the spec's own scenario — balance 10000, batch
`[4000, 3000, 2999]` (total 9999) succeeds and the balance becomes 1. -/
theorem c1_batch_payout_atomicity_witness :
    batchPayout ps0 7 [1, 2, 3] [4000, 3000, 2999] 11 =
      .ok (progAfterBatch ps0 [1, 2, 3] [4000, 3000, 2999] 11 9999,
           Step.write ::
             List.zipWith (fun r a => Step.xferOut r a) [1, 2, 3] [4000, 3000, 2999]) :=
  (c1_batch_payout_atomicity ps0 7 11 [1, 2, 3] [4000, 3000, 2999] 9999
    rfl (by decide) rfl (by decide) (by decide)).2.2 (by decide)

/-- C2: a batch whose amounts overflow the checked `i128` accumulator is
rejected with `ArithmeticOverflow` (hence no transfer and no state change),
for every remaining balance. -/
theorem c2_batch_overflow_aborts (s : PState) (caller now : Nat)
    (recipients : List Nat) (amounts : List Int)
    (hp : s.paused = false) (ha : payoutAuthorized s caller = true)
    (hlen : recipients.length = amounts.length)
    (hsz : recipients.length ≤ MAX_BATCH_SIZE)
    (hsum : checkedSum amounts = none) :
    batchPayout s caller recipients amounts now = .error .ArithmeticOverflow := by
  have hsz' : ¬ (MAX_BATCH_SIZE < amounts.length) := by omega
  simp [batchPayout, hp, ha, hlen, hsz', hsum]

/-- C2 witness: the two-element batch `[i128-max, 1]` overflows the checked
accumulator and is rejected even though the balance is ample. -/
theorem c2_batch_overflow_aborts_witness :
    batchPayout ps0 7 [1, 2] [I128MAX, 1] 11 = .error .ArithmeticOverflow :=
  c2_batch_overflow_aborts ps0 7 11 [1, 2] [I128MAX, 1]
    rfl (by decide) rfl (by decide) (by decide)

/-- C3: the bounty status machine has no transition out of Released or
Refunded — on a non-Locked record both `releaseFunds` and `refund` fail
`FundsNotLocked` and (aborting) leave the record unchanged; and `lockFunds`
followed by `releaseFunds` moves Locked to Released exactly once: the second
`releaseFunds`, and any `refund`, then fail `FundsNotLocked`. -/
theorem c3_terminal_status_machine (s : BState) (caller b ctr now d : Nat)
    (a : Int) (dl : Nat) (rec : BountyRec)
    (hp : s.paused = false) (hop : isOperator s.roles caller = true) :
    (mapGet s.bounties b = some rec → rec.status ≠ EscrowStatus.Locked →
      releaseFunds s caller b ctr = .error .FundsNotLocked ∧
      refund s caller b now = .error .FundsNotLocked) ∧
    (mapGet s.bounties b = none → 0 < a →
      lockFunds s d b a dl =
        .ok (bountyAfterLock s d b a dl, [Step.write, Step.xferIn d a]) ∧
      releaseFunds (bountyAfterLock s d b a dl) caller b ctr =
        .ok (bountyAfterRelease (bountyAfterLock s d b a dl) b ⟨d, a, dl, EscrowStatus.Locked⟩,
             [Step.write, Step.xferOut ctr a]) ∧
      releaseFunds
          (bountyAfterRelease (bountyAfterLock s d b a dl) b ⟨d, a, dl, EscrowStatus.Locked⟩)
          caller b ctr = .error .FundsNotLocked ∧
      refund
          (bountyAfterRelease (bountyAfterLock s d b a dl) b ⟨d, a, dl, EscrowStatus.Locked⟩)
          caller b now = .error .FundsNotLocked) := by
  constructor
  · intro hrec hstat
    constructor
    · simp [releaseFunds, hp, hop, hrec, hstat]
    · simp [refund, hp, hrec, hstat]
  · intro hnone hpos
    refine ⟨?_, ?_, ?_, ?_⟩
    · simp [lockFunds, hp, hnone, not_le.mpr hpos]
    · simp [releaseFunds, bountyAfterLock, bountyAfterRelease, hp, hop, mapGet_mapSet_self]
    · simp [releaseFunds, bountyAfterLock, bountyAfterRelease, hp, hop, mapGet_mapSet_self]
    · simp [refund, bountyAfterLock, bountyAfterRelease, hp, mapGet_mapSet_self]

/-- C3 witness: a concrete lock → release → (second release, refund)
sequence from the empty escrow, with an Admin caller. -/
theorem c3_terminal_status_machine_witness :
    lockFunds bs0 5 2 100 50 =
      .ok (bountyAfterLock bs0 5 2 100 50, [Step.write, Step.xferIn 5 100]) ∧
    releaseFunds (bountyAfterLock bs0 5 2 100 50) 9 2 11 =
      .ok (bountyAfterRelease (bountyAfterLock bs0 5 2 100 50) 2 ⟨5, 100, 50, EscrowStatus.Locked⟩,
           [Step.write, Step.xferOut 11 100]) ∧
    releaseFunds
        (bountyAfterRelease (bountyAfterLock bs0 5 2 100 50) 2 ⟨5, 100, 50, EscrowStatus.Locked⟩)
        9 2 11 = .error .FundsNotLocked ∧
    refund
        (bountyAfterRelease (bountyAfterLock bs0 5 2 100 50) 2 ⟨5, 100, 50, EscrowStatus.Locked⟩)
        9 2 60 = .error .FundsNotLocked :=
  (c3_terminal_status_machine bs0 9 2 11 60 5 100 50 ⟨5, 100, 50, EscrowStatus.Released⟩
    rfl (by decide)).2 rfl (by decide)

/-- C4: `refund` needs no role — it fails `BountyNotFound` without a record,
`FundsNotLocked` unless the status is Locked, `DeadlineNotPassed` before the
deadline; at or after the deadline it succeeds, marks the bounty Refunded and
transfers the locked amount to the original depositor; and its result is the
same for every caller identity. -/
theorem c4_permissionless_refund (s : BState) (caller caller2 b now : Nat) (rec : BountyRec)
    (hp : s.paused = false) :
    (mapGet s.bounties b = none →
      refund s caller b now = .error .BountyNotFound) ∧
    (mapGet s.bounties b = some rec → rec.status ≠ EscrowStatus.Locked →
      refund s caller b now = .error .FundsNotLocked) ∧
    (mapGet s.bounties b = some rec → rec.status = EscrowStatus.Locked →
      now < rec.deadline →
      refund s caller b now = .error .DeadlineNotPassed) ∧
    (mapGet s.bounties b = some rec → rec.status = EscrowStatus.Locked →
      rec.deadline ≤ now →
      refund s caller b now =
        .ok (bountyAfterRefund s b rec,
             [Step.write, Step.xferOut rec.depositor rec.amount])) ∧
    refund s caller b now = refund s caller2 b now := by
  refine ⟨?_, ?_, ?_, ?_, rfl⟩
  · intro hnone
    simp [refund, hp, hnone]
  · intro hrec hstat
    simp [refund, hp, hrec, hstat]
  · intro hrec hstat hdl
    simp [refund, hp, hrec, hstat, hdl]
  · intro hrec hstat hdl
    simp [refund, hp, hrec, hstat, not_lt.mpr hdl]

/-- C4 witness: on the Locked bounty (deposited by 5, deadline 50): a missing
id fails `BountyNotFound`, an early refund fails `DeadlineNotPassed`, a late
refund by the roleless caller 1 pays depositor 5, and caller 1 and caller 3
get identical results. -/
theorem c4_permissionless_refund_witness :
    refund bsLocked 1 4 60 = .error .BountyNotFound ∧
    refund bsLocked 1 2 10 = .error .DeadlineNotPassed ∧
    refund bsLocked 1 2 60 =
      .ok (bountyAfterRefund bsLocked 2 ⟨5, 100, 50, EscrowStatus.Locked⟩,
           [Step.write, Step.xferOut 5 100]) ∧
    refund bsLocked 1 2 60 = refund bsLocked 3 2 60 :=
  ⟨(c4_permissionless_refund bsLocked 1 3 4 60 ⟨5, 100, 50, EscrowStatus.Locked⟩ rfl).1 rfl,
   (c4_permissionless_refund bsLocked 1 3 2 10 ⟨5, 100, 50, EscrowStatus.Locked⟩ rfl).2.2.1
     rfl rfl (by decide),
   (c4_permissionless_refund bsLocked 1 3 2 60 ⟨5, 100, 50, EscrowStatus.Locked⟩ rfl).2.2.2.1
     rfl rfl (by decide),
   (c4_permissionless_refund bsLocked 1 3 2 60 ⟨5, 100, 50, EscrowStatus.Locked⟩ rfl).2.2.2.2⟩

/-- C5 counterexample: the claim as stated fails when the target address is
the acting admin itself — after `grantRole(admin, admin, Viewer)` succeeds,
`revokeRole(admin, admin)` fails `Unauthorized` (the caller's stored role is
no longer Admin), so `getRole` afterwards returns Viewer, not "no role". -/
theorem c5_self_demotion_counterexample :
    grantRole [(1, Role.Admin)] 1 1 Role.Viewer =
      .ok (mapSet [(1, Role.Admin)] 1 Role.Viewer) ∧
    revokeRole (mapSet [(1, Role.Admin)] 1 Role.Viewer) 1 1 = .error .Unauthorized ∧
    getRole (mapSet [(1, Role.Admin)] 1 Role.Viewer) 1 = some Role.Viewer :=
  ⟨rfl, rfl, rfl⟩

/-- C5 (amended): for every address `addr` other than the acting admin and
every role `R`, `getRole addr` after `grantRole(admin, addr, R)` returns `R`;
after `revokeRole(admin, addr)` it returns no role and every role-gated call
by `addr` fails `Unauthorized`; and `grantRole`/`revokeRole` succeed exactly
when the caller's stored role is the literal Admin tag. -/
theorem c5_role_roundtrip (roles : RMap) (admin addr caller : Nat) (R expected : Role)
    (hadm : getRole roles admin = some Role.Admin) (hne : addr ≠ admin) :
    grantRole roles admin addr R = .ok (mapSet roles addr R) ∧
    getRole (mapSet roles addr R) addr = some R ∧
    revokeRole (mapSet roles addr R) admin addr =
      .ok (mapDel (mapSet roles addr R) addr) ∧
    getRole (mapDel (mapSet roles addr R) addr) addr = none ∧
    requireRole (mapDel (mapSet roles addr R) addr) addr expected = .error .Unauthorized ∧
    (grantRole roles caller addr R).isOk = isAdmin roles caller ∧
    (revokeRole roles caller addr).isOk = isAdmin roles caller := by
  have hset : getRole (mapSet roles addr R) admin = some Role.Admin := by
    unfold getRole at hadm ⊢
    rw [mapGet_mapSet_ne roles addr admin R (Ne.symm hne)]
    exact hadm
  refine ⟨?_, ?_, ?_, ?_, ?_, ?_, ?_⟩
  · simp [grantRole, isAdmin, hadm]
  · exact mapGet_mapSet_self roles addr R
  · simp [revokeRole, isAdmin, hset]
  · exact mapGet_mapDel_self (mapSet roles addr R) addr
  · unfold requireRole getRole
    rw [mapGet_mapDel_self (mapSet roles addr R) addr]
  · cases h : isAdmin roles caller <;> simp [grantRole, h, Except.isOk, Except.toBool]
  · cases h : isAdmin roles caller <;> simp [revokeRole, h, Except.isOk, Except.toBool]

/-- C5 witness: Admin 9 grants Operator to address 2, address 2 then holds
Operator; after revocation it holds no role and `requireRole` rejects it;
the Viewer 4 can neither grant nor revoke. -/
theorem c5_role_roundtrip_witness :
    grantRole wRoles 9 2 Role.Operator = .ok (mapSet wRoles 2 Role.Operator) ∧
    getRole (mapSet wRoles 2 Role.Operator) 2 = some Role.Operator ∧
    revokeRole (mapSet wRoles 2 Role.Operator) 9 2 =
      .ok (mapDel (mapSet wRoles 2 Role.Operator) 2) ∧
    getRole (mapDel (mapSet wRoles 2 Role.Operator) 2) 2 = none ∧
    requireRole (mapDel (mapSet wRoles 2 Role.Operator) 2) 2 Role.Operator =
      .error .Unauthorized ∧
    (grantRole wRoles 4 2 Role.Operator).isOk = isAdmin wRoles 4 ∧
    (revokeRole wRoles 4 2).isOk = isAdmin wRoles 4 :=
  c5_role_roundtrip wRoles 9 2 4 Role.Operator Role.Operator (by decide) (by decide)

/-- C6: while paused, every fund-moving entry point of both escrows fails
`ContractPaused` for arbitrary (even invalid) arguments, i.e. before any
other validation; the read-only entry points still succeed; `pauseContract`
succeeds exactly for a Pauser-or-Admin caller on an unpaused contract and
`unpauseContract` exactly for a caller whose stored role is Admin. -/
theorem c6_pause_gating (bs : BState) (ps qs : PState) (c d b ctr now r addr : Nat)
    (a amt : Int) (dl : Nat) (recipients : List Nat) (amounts : List Int)
    (hb : bs.paused = true) (hp : ps.paused = true) :
    lockFunds bs d b a dl = .error .ContractPaused ∧
    releaseFunds bs c b ctr = .error .ContractPaused ∧
    refund bs c b now = .error .ContractPaused ∧
    lockProgramFunds ps c amt = .error .ContractPaused ∧
    singlePayout ps c r amt now = .error .ContractPaused ∧
    batchPayout ps c recipients amounts now = .error .ContractPaused ∧
    (getBalance bs).isOk = true ∧
    (getRoleOp ps addr).isOk = true ∧
    (getProgramInfo ps).isOk = true ∧
    (pauseContract qs c).isOk = (canPause qs.roles c && !qs.paused) ∧
    (unpauseContract qs c).isOk = isAdmin qs.roles c := by
  refine ⟨?_, ?_, ?_, ?_, ?_, ?_, rfl, rfl, rfl, ?_, ?_⟩
  · simp [lockFunds, hb]
  · simp [releaseFunds, hb]
  · simp [refund, hb]
  · simp [lockProgramFunds, hp]
  · simp [singlePayout, hp]
  · simp [batchPayout, hp]
  · cases hcp : canPause qs.roles c <;> cases hq : qs.paused <;>
      simp [pauseContract, hcp, hq, Except.isOk, Except.toBool]
  · cases h : isAdmin qs.roles c <;> simp [unpauseContract, h, Except.isOk, Except.toBool]

/-- C6 witness: with both escrows paused, concrete fund-moving calls fail
`ContractPaused`, the reads succeed, and the pause/unpause success
conditions are exhibited on the unpaused program state. -/
theorem c6_pause_gating_witness :
    lockFunds bsPaused 5 2 100 50 = .error .ContractPaused ∧
    releaseFunds bsPaused 9 2 11 = .error .ContractPaused ∧
    refund bsPaused 1 2 60 = .error .ContractPaused ∧
    lockProgramFunds psPaused 1 500 = .error .ContractPaused ∧
    singlePayout psPaused 7 1 500 11 = .error .ContractPaused ∧
    batchPayout psPaused 7 [1] [500] 11 = .error .ContractPaused ∧
    (getBalance bsPaused).isOk = true ∧
    (getRoleOp psPaused 9).isOk = true ∧
    (getProgramInfo psPaused).isOk = true ∧
    (pauseContract ps0 6).isOk = (canPause ps0.roles 6 && !ps0.paused) ∧
    (unpauseContract ps0 6).isOk = isAdmin ps0.roles 6 :=
  c6_pause_gating bsPaused psPaused ps0 6 5 2 11 60 1 9 100 500 50 [1] [500] rfl rfl

/-- C7: `lockProgramFunds` is unrestricted — its success does not depend on
the caller; it fails `InvalidAmount` for every `amount ≤ 0`, and for every
`amount > 0` whose checked addition to the remaining balance succeeds it
increases the remaining balance by exactly `amount` and pulls the tokens in. -/
theorem c7_lock_program_funds (s : PState) (caller caller2 : Nat) (amount nb : Int)
    (hp : s.paused = false) :
    (amount ≤ 0 → lockProgramFunds s caller amount = .error .InvalidAmount) ∧
    (0 < amount → checkedAdd s.remainingBalance amount = some nb →
      nb = s.remainingBalance + amount ∧
      lockProgramFunds s caller amount =
        .ok ({ s with remainingBalance := nb }, [Step.write, Step.xferIn caller amount])) ∧
    (lockProgramFunds s caller amount).isOk = (lockProgramFunds s caller2 amount).isOk := by
  refine ⟨?_, ?_, ?_⟩
  · intro h
    simp [lockProgramFunds, hp, h]
  · intro h1 h2
    have hnb : nb = s.remainingBalance + amount := by
      unfold checkedAdd at h2
      by_cases hr : I128MIN ≤ s.remainingBalance + amount ∧
          s.remainingBalance + amount ≤ I128MAX
      · rw [if_pos hr] at h2
        exact (Option.some.inj h2).symm
      · rw [if_neg hr] at h2
        cases h2
    refine ⟨hnb, ?_⟩
    simp [lockProgramFunds, hp, not_le.mpr h1, h2]
  · simp only [lockProgramFunds, hp]
    split_ifs <;>
      first
        | rfl
        | (cases hca : checkedAdd s.remainingBalance amount <;> simp [hca, Except.isOk, Except.toBool])

/-- C7 witness: the roleless caller 1 locks 500 into the program pool and
the balance rises from 10000 to exactly 10500; caller 2 would succeed just
the same; locking 0 fails `InvalidAmount`. -/
theorem c7_lock_program_funds_witness :
    lockProgramFunds ps0 1 500 =
      .ok ({ ps0 with remainingBalance := 10500 }, [Step.write, Step.xferIn 1 500]) ∧
    (lockProgramFunds ps0 1 500).isOk = (lockProgramFunds ps0 2 500).isOk ∧
    lockProgramFunds ps0 1 0 = .error .InvalidAmount :=
  ⟨((c7_lock_program_funds ps0 1 2 500 10500 rfl).2.1 (by decide) (by decide)).2,
   (c7_lock_program_funds ps0 1 2 500 10500 rfl).2.2,
   (c7_lock_program_funds ps0 1 2 0 10500 rfl).1 (by decide)⟩


/-- C8: checks-effects-interactions — in every fund-moving operation of both
escrows, every successful invocation's step trace performs its persistent
state write strictly before any external token transfer (aborted invocations
perform neither); no trace interleaves a transfer before or between the
validation and state-write steps. -/
theorem c8_writes_before_transfers (bs : BState) (ps : PState)
    (caller d b ctr now r : Nat) (a amt : Int) (dl : Nat)
    (recipients : List Nat) (amounts : List Int) :
    orderedTrace (traceOf (lockFunds bs d b a dl)) = true ∧
    orderedTrace (traceOf (releaseFunds bs caller b ctr)) = true ∧
    orderedTrace (traceOf (refund bs caller b now)) = true ∧
    orderedTrace (traceOf (lockProgramFunds ps caller amt)) = true ∧
    orderedTrace (traceOf (singlePayout ps caller r amt now)) = true ∧
    orderedTrace (traceOf (batchPayout ps caller recipients amounts now)) = true := by
  refine ⟨?_, ?_, ?_, ?_, ?_, ?_⟩
  · unfold lockFunds
    split_ifs <;> simp [traceOf, orderedTrace, List.dropWhile, Step.isWrite]
  · unfold releaseFunds
    cases hm : mapGet bs.bounties b <;> dsimp only <;> split_ifs <;>
      simp [traceOf, orderedTrace, List.dropWhile, Step.isWrite]
  · unfold refund
    cases hm : mapGet bs.bounties b <;> dsimp only <;> split_ifs <;>
      simp [traceOf, orderedTrace, List.dropWhile, Step.isWrite]
  · unfold lockProgramFunds
    cases hca : checkedAdd ps.remainingBalance amt <;> dsimp only <;> split_ifs <;>
      simp [traceOf, orderedTrace, List.dropWhile, Step.isWrite]
  · unfold singlePayout
    split_ifs <;> simp [traceOf, orderedTrace, List.dropWhile, Step.isWrite]
  · unfold batchPayout
    cases hcs : checkedSum amounts <;> dsimp only <;> split_ifs <;>
      first
        | (simp [traceOf, orderedTrace, List.dropWhile, Step.isWrite]; done)
        | (simp only [traceOf]
           exact orderedTrace_write_cons _ (all_not_write_zipWith recipients amounts))

/-- C9 counterexample: the claim's "(n/1000) rounded to one decimal" fails at
the tie input n = 2550 — the binary64 quotient 2550/1000 is
2.54999999999999982…, so the program renders `2.5K`, while exact one-decimal
rounding of the rational 2.55 gives `2.6` (half-up; ties-to-even agrees
here), and the two strings differ. -/
theorem c9_tie_counterexample :
    formatNumber 2550 = "2.5" ++ "K" ∧
    specToFixed1 2550 1000 ++ "K" = "2.6K" ∧
    formatNumber 2550 ≠ specToFixed1 2550 1000 ++ "K" := by
  refine ⟨by decide, by decide, by decide⟩

/-- C9 (amended): for every non-negative integer `n` exactly representable
as a JavaScript number (`n < 2 ^ 53`), `formatNumber` returns `toFixed(1)`
of the IEEE binary64 quotient `n/1000000` with suffix `M` when
`n ≥ 1000000`, `toFixed(1)` of the binary64 quotient `n/1000` with suffix
`K` when `1000 ≤ n < 1000000`, and the plain decimal string of `n`
otherwise. -/
theorem c9_format_number (n : Nat) (hn : n < 2 ^ 53) :
    (1000000 ≤ n → formatNumber n = jsDivToFixed1 n 1000000 ++ "M") ∧
    (1000 ≤ n → n < 1000000 → formatNumber n = jsDivToFixed1 n 1000 ++ "K") ∧
    (n < 1000 → formatNumber n = toString n) := by
  refine ⟨?_, ?_, ?_⟩
  · intro h
    simp [formatNumber, h]
  · intro h1 h2
    unfold formatNumber
    rw [if_neg (by omega), if_pos h1]
  · intro h
    unfold formatNumber
    rw [if_neg (by omega), if_neg (by omega)]

/-- C9 witness: 2500000 formats through the double quotient as `2.5M`, the
tie input 2550 as `2.5K`, and 999 as the plain `999`. -/
theorem c9_format_number_witness :
    formatNumber 2500000 = jsDivToFixed1 2500000 1000000 ++ "M" ∧
    formatNumber 2550 = jsDivToFixed1 2550 1000 ++ "K" ∧
    formatNumber 999 = toString 999 :=
  ⟨(c9_format_number 2500000 (by decide)).1 (by decide),
   (c9_format_number 2550 (by decide)).2.1 (by decide) (by decide),
   (c9_format_number 999 (by decide)).2.2 (by decide)⟩

/-- Indexing with a default inside the bounds always yields a list member. -/
theorem getD_mem_of_lt {α : Type} :
    ∀ (l : List α) (i : Nat) (d : α), i < l.length → l.getD i d ∈ l := by
  intro l
  induction l with
  | nil => intro i d h; simp at h
  | cons x t ih =>
    intro i d h
    cases i with
    | zero => simp [List.getD]
    | succ j =>
      have : t.getD j d ∈ t := ih j d (by simpa using h)
      simp [List.getD] at this ⊢
      exact Or.inr this

/-- C10: `getProjectColor` is total and deterministic — the character-code
sum is a natural number, its residue modulo the 8-element gradient list's
length is in bounds, and the returned string is always one of the fixed 8
gradients (the default is never taken); determinism is definitional for the
pure function. -/
theorem c10_project_color_total (name : String) :
    projectColors.length = 8 ∧ getProjectColor name ∈ projectColors := by
  refine ⟨rfl, ?_⟩
  unfold getProjectColor
  exact getD_mem_of_lt projectColors _ ""
    (Nat.mod_lt _ (by simp [projectColors]))
